import Mathlib

/-!
Verification of the core in-memory data-store engine specified for this
repository: a keyed store, a command dispatcher with NORMAL / QUEUEING /
SUBSCRIBED session modes, a pub/sub broker, and a serialized event loop.

The repository's scripts invoke a pre-built client library; the engine
itself is specified in `spec.md` (components KeyedStore, CommandDispatcher,
ConnectionSession, Broker, Server/EventLoop).  The definitions below are a
shallow embedding of that engine, with the concrete store commands
(set/get/del/incr/decr/incrBy/decrBy) taken from the scripts'
usage of the client API.
-/

namespace RedisCore

/-- Error taxonomy from the spec (§7). -/
inductive ErrKind where
  | TypeMismatch
  | NoSuchKey
  | InvalidArgument
  | ModeError
  | ExecAbort
  | UnknownCommand
deriving DecidableEq

/-- Replies: simple status, integer, bulk string (none encodes nil),
array of replies, or typed error (spec §6). -/
inductive Reply where
  | status (s : String)
  | int (n : Int)
  | bulk (s : Option String)
  | arr (rs : List Reply)
  | err (e : ErrKind)

/-- A scalar value: Redis stores every scalar as a string but keeps an
integer encoding for strings that parse as integers (this is what makes
incr/decr well defined).  `num n` is the integer encoding, `raw s` an
arbitrary non-numeric string. -/
inductive Val where
  | num (n : Int)
  | raw (s : String)
deriving DecidableEq

/-- The string rendering of a stored scalar, as returned by `get`. -/
def Val.render : Val → String
  | .num n => toString n
  | .raw s => s

/-- Parse a run of decimal digits with an accumulator. -/
def parseDigitsAux : List Char → Nat → Option Nat
  | [], acc => some acc
  | c :: cs, acc =>
    if c.isDigit then parseDigitsAux cs (acc * 10 + (c.toNat - Char.toNat '0')) else none

/-- Parse a string as a decimal integer (optional leading minus sign);
`none` when the string is not numeric. -/
def parseIntString (s : String) : Option Int :=
  match s.toList with
  | [] => none
  | c :: cs =>
    if c = '-' then
      match cs with
      | [] => none
      | _ => (parseDigitsAux cs 0).map (fun n => -(n : Int))
    else (parseDigitsAux (c :: cs) 0).map (fun n => (n : Int))

/-- Normalize an incoming string argument into its stored encoding. -/
def normalizeVal (s : String) : Val :=
  match parseIntString s with
  | some n => .num n
  | none => .raw s

/-- Modelled from the spec: KeyedStore, "an in-memory mapping from keys to
typed values" (§3), as an association list from key to scalar value.  The
scripts only exercise scalar commands, so only the scalar kind is
populated. -/
def KeyedStore := List (String × Val)

instance : DecidableEq KeyedStore := by
  unfold KeyedStore
  infer_instance

def lookupK : KeyedStore → String → Option Val
  | [], _ => none
  | (k, v) :: rest, key => if k = key then some v else lookupK rest key

def insertK : KeyedStore → String → Val → KeyedStore
  | [], key, val => [(key, val)]
  | (k, v) :: rest, key, val =>
    if k = key then (key, val) :: rest else (k, v) :: insertK rest key val

def removeK : KeyedStore → String → KeyedStore
  | [], _ => []
  | (k, v) :: rest, key =>
    if k = key then removeK rest key else (k, v) :: removeK rest key

/-- The store commands exercised by the repository's scripts
(`set`, `get`, `del`, `incr`, `decr`, `incrBy`, `decrBy`). -/
inductive StoreCmd where
  | set (key val : String)
  | get (key : String)
  | del (key : String)
  | incr (key : String)
  | decr (key : String)
  | incrBy (key : String) (n : Int)
  | decrBy (key : String) (n : Int)
deriving DecidableEq

/-- Shared kernel of incr/decr/incrBy/decrBy: an absent key counts as 0,
a non-numeric value is an `InvalidArgument` error (spec §4.1), otherwise
the stored integer is adjusted and the new value returned. -/
def incrKernel (st : KeyedStore) (key : String) (n : Int) : Reply × KeyedStore :=
  match lookupK st key with
  | none => (.int n, insertK st key (.num n))
  | some (.num m) => (.int (m + n), insertK st key (.num (m + n)))
  | some (.raw _) => (.err .InvalidArgument, st)

/-- Modelled from the spec: the KeyedStore contract
`apply(command) -> (result, error)` (§4.1), instantiated at the scalar
commands the scripts use.  A read of an absent key returns nil, not an
error. -/
def applyStore (c : StoreCmd) (st : KeyedStore) : Reply × KeyedStore :=
  match c with
  | .set key val => (.status "OK", insertK st key (normalizeVal val))
  | .get key =>
    match lookupK st key with
    | none => (.bulk none, st)
    | some v => (.bulk (some v.render), st)
  | .del key =>
    match lookupK st key with
    | none => (.int 0, st)
    | some _ => (.int 1, removeK st key)
  | .incr key => incrKernel st key 1
  | .decr key => incrKernel st key (-1)
  | .incrBy key n => incrKernel st key n
  | .decrBy key n => incrKernel st key (-n)

/-- Modelled from the spec: the three session modes of the per-connection
state machine (§3, §4.4). -/
inductive Mode where
  | NORMAL
  | QUEUEING
  | SUBSCRIBED
deriving DecidableEq

/-- Modelled from the spec: ConnectionSession (§3) — mode, the
QueuedTransaction (ordered queued commands plus validity flag), the
Broker-tracked channel subscriptions of this session, and the delivery
stream of `(channel, message)` pairs received so far (§6). -/
structure Session where
  mode : Mode
  queued : List StoreCmd
  valid : Bool
  channels : List String
  inbox : List (String × String)
deriving DecidableEq

def Session.fresh : Session :=
  { mode := .NORMAL, queued := [], valid := true, channels := [], inbox := [] }

/-- Modelled from the spec: process-wide state — the shared KeyedStore and
one ConnectionSession per connection id (§2, §5).  The Broker registry is
represented by the per-session channel lists: a session is subscribed to a
channel exactly when the channel is in its list (§4.3 invariant). -/
structure Server where
  store : KeyedStore
  sessions : List (Nat × Session)

def lookupSession : List (Nat × Session) → Nat → Option Session
  | [], _ => none
  | (i, s) :: rest, cid => if i = cid then some s else lookupSession rest cid

def updateSession : List (Nat × Session) → Nat → Session → List (Nat × Session)
  | [], _, _ => []
  | (i, s) :: rest, cid, s2 =>
    if i = cid then (i, s2) :: rest else (i, s) :: updateSession rest cid s2

def removeSession : List (Nat × Session) → Nat → List (Nat × Session)
  | [], _ => []
  | (i, s) :: rest, cid =>
    if i = cid then removeSession rest cid else (i, s) :: removeSession rest cid

/-- Commands at the dispatcher level: a store command or one of the
control commands (spec §4.2). -/
inductive Cmd where
  | store (c : StoreCmd)
  | multi
  | exec
  | discard
  | subscribe (ch : String)
  | unsubscribe (ch : String)
  | publish (ch msg : String)
  | ping
  | quit
deriving DecidableEq

/-- The commands a SUBSCRIBED session may issue (spec §3, §4.2). -/
def allowedSubscribed : Cmd → Bool
  | .subscribe _ => true
  | .unsubscribe _ => true
  | .ping => true
  | .quit => true
  | _ => false

/-- Modelled from the spec: execute every queued command against the store
in the exact order queued, collecting one reply per command; a failing
command does not abort the remaining commands (§4.2). -/
def execQueue : List StoreCmd → KeyedStore → List Reply × KeyedStore
  | [], st => ([], st)
  | c :: cs, st =>
    let r := applyStore c st
    let rest := execQueue cs r.2
    (r.1 :: rest.1, rest.2)

/-- The store after applying a list of store commands in order. -/
def stateAfter (q : List StoreCmd) (st : KeyedStore) : KeyedStore :=
  q.foldl (fun s c => (applyStore c s).2) st

/-- Count of sessions currently subscribed to a channel. -/
def subscriberCount (ch : String) (ss : List (Nat × Session)) : Nat :=
  (ss.filter (fun p => ch ∈ p.2.channels)).length

/-- Broker delivery: append `(ch, msg)` to the inbox of every session
currently subscribed to `ch`; all other sessions are untouched. -/
def deliver (ch msg : String) (ss : List (Nat × Session)) : List (Nat × Session) :=
  ss.map (fun p =>
    if ch ∈ p.2.channels then
      (p.1, { p.2 with inbox := p.2.inbox ++ [(ch, msg)] })
    else p)

/-- Modelled from the spec: the CommandDispatcher contract
`dispatch(session, command) -> reply` (§4.2), acting on the process-wide
state.  Mode behavior:
* SUBSCRIBED sessions accept only subscribe/unsubscribe/ping/quit; any
  other command is a `ModeError` and the store is untouched.
* QUEUEING sessions append store commands to the QueuedTransaction and
  reply with a literal "QUEUED" acknowledgment without touching the store;
  `exec` applies the whole queue atomically (or `ExecAbort` on an invalid
  queue) and resets the session to NORMAL; `discard` resets to NORMAL
  without executing anything.  A nested `multi` errors (documented policy
  choice, §4.4).
* NORMAL sessions apply store commands immediately; `multi` enters
  QUEUEING with an empty valid queue; `exec`/`discard` without an active
  transaction are `ModeError`s; `subscribe` registers the channel and
  enters SUBSCRIBED; `publish` delivers to every subscriber and returns
  the recipient count. -/
def dispatch (srv : Server) (cid : Nat) (c : Cmd) : Reply × Server :=
  match lookupSession srv.sessions cid with
  | none => (.err .UnknownCommand, srv)
  | some s =>
    match s.mode with
    | .SUBSCRIBED =>
      match c with
      | .subscribe ch =>
        let chans := if ch ∈ s.channels then s.channels else s.channels ++ [ch]
        let s2 := { s with channels := chans }
        (.arr [.bulk (some ch), .int chans.length],
          { srv with sessions := updateSession srv.sessions cid s2 })
      | .unsubscribe ch =>
        let chans := s.channels.filter (fun x => x ≠ ch)
        let s2 := { s with channels := chans,
                           mode := if chans.isEmpty then Mode.NORMAL else Mode.SUBSCRIBED }
        (.arr [.bulk (some ch), .int chans.length],
          { srv with sessions := updateSession srv.sessions cid s2 })
      | .ping => (.status "PONG", srv)
      | .quit => (.status "OK", { srv with sessions := removeSession srv.sessions cid })
      | _ => (.err .ModeError, srv)
    | .QUEUEING =>
      match c with
      | .store sc =>
        let s2 := { s with queued := s.queued ++ [sc] }
        (.status "QUEUED", { srv with sessions := updateSession srv.sessions cid s2 })
      | .exec =>
        let s2 := { s with mode := Mode.NORMAL, queued := [], valid := true }
        if s.valid then
          let res := execQueue s.queued srv.store
          (.arr res.1, { store := res.2, sessions := updateSession srv.sessions cid s2 })
        else
          (.err .ExecAbort, { srv with sessions := updateSession srv.sessions cid s2 })
      | .discard =>
        let s2 := { s with mode := Mode.NORMAL, queued := [], valid := true }
        (.status "OK", { srv with sessions := updateSession srv.sessions cid s2 })
      | .ping => (.status "PONG", srv)
      | .quit => (.status "OK", { srv with sessions := removeSession srv.sessions cid })
      | _ => (.err .ModeError, srv)
    | .NORMAL =>
      match c with
      | .store sc =>
        let r := applyStore sc srv.store
        (r.1, { srv with store := r.2 })
      | .multi =>
        let s2 := { s with mode := Mode.QUEUEING, queued := [], valid := true }
        (.status "OK", { srv with sessions := updateSession srv.sessions cid s2 })
      | .exec => (.err .ModeError, srv)
      | .discard => (.err .ModeError, srv)
      | .subscribe ch =>
        let chans := if ch ∈ s.channels then s.channels else s.channels ++ [ch]
        let s2 := { s with mode := Mode.SUBSCRIBED, channels := chans }
        (.arr [.bulk (some ch), .int chans.length],
          { srv with sessions := updateSession srv.sessions cid s2 })
      | .unsubscribe _ => (.err .ModeError, srv)
      | .publish ch msg =>
        (.int (subscriberCount ch srv.sessions),
          { srv with sessions := deliver ch msg srv.sessions })
      | .ping => (.status "PONG", srv)
      | .quit => (.status "OK", { srv with sessions := removeSession srv.sessions cid })

/-- Modelled from the spec: the Server/EventLoop serializes command
execution — an event is one command from one connection, and events are
processed one at a time in a strict total order (§4.5, §5). -/
def step (srv : Server) (e : Nat × Cmd) : Server :=
  (dispatch srv e.1 e.2).2

def processEvents (srv : Server) (es : List (Nat × Cmd)) : Server :=
  es.foldl step srv

/-- The store commands a single event applies to the KeyedStore: a store
command from a NORMAL session applies itself; `exec` from a QUEUEING
session with a valid queue applies the whole queued batch; every other
event applies nothing. -/
def appliedOf (srv : Server) (e : Nat × Cmd) : List StoreCmd :=
  match lookupSession srv.sessions e.1 with
  | none => []
  | some s =>
    match s.mode, e.2 with
    | .NORMAL, .store sc => [sc]
    | .QUEUEING, .exec => if s.valid then s.queued else []
    | _, _ => []

/-- The flattened sequence of store commands applied by an event list:
each event contributes its `appliedOf` block contiguously, in event
order. -/
def storeTrace (srv : Server) : List (Nat × Cmd) → List StoreCmd
  | [] => []
  | e :: es => appliedOf srv e ++ storeTrace (step srv e) es

/-- The reply a `get` receives, as a function of the issuing session's mode
and the store alone. -/
def getReplyView (m : Option Mode) (st : KeyedStore) (k : String) : Reply :=
  match m with
  | none => .err .UnknownCommand
  | some .NORMAL =>
    match lookupK st k with
    | none => .bulk none
    | some v => .bulk (some v.render)
  | some .QUEUEING => .status "QUEUED"
  | some .SUBSCRIBED => .err .ModeError

/-- The two-connection transfer scenario: connection 2 initializes the
accounts, connection 1 begins a transaction and queues the four commands
of the demonstrated transfer. -/
def scenarioStart : Server :=
  { store := [], sessions := [(1, Session.fresh), (2, Session.fresh)] }

def scenarioQueueing : Server :=
  processEvents scenarioStart
    [(2, .store (.set "A" "1000")), (2, .store (.set "B" "500")),
     (1, .multi),
     (1, .store (.decrBy "A" 100)), (1, .store (.incrBy "B" 100)),
     (1, .store (.get "A")), (1, .store (.get "B"))]

/-- A session in QUEUEING mode with two commands already queued (witness
fixture). -/
def sessQueued : Session :=
  { mode := .QUEUEING, queued := [.set "x" "1", .get "x"], valid := true,
    channels := [], inbox := [] }

def srvQueued : Server :=
  { store := [("A", .num 7)], sessions := [(1, sessQueued), (2, Session.fresh)] }

/-- A session subscribed to channel "alerts" (witness fixture). -/
def sessAlerts : Session :=
  { mode := .SUBSCRIBED, queued := [], valid := true,
    channels := ["alerts"], inbox := [] }

def srvPub : Server :=
  { store := [], sessions := [(1, Session.fresh), (2, sessAlerts), (3, Session.fresh)] }

theorem lookupK_insertK_self (st : KeyedStore) (key : String) (v : Val) :
    lookupK (insertK st key v) key = some v := by
  induction st with
  | nil => simp [insertK, lookupK]
  | cons hd tl ih =>
    obtain ⟨k, w⟩ := hd
    by_cases h : k = key
    · simp [insertK, lookupK, h]
    · simp [insertK, lookupK, h, ih]

theorem lookupK_insertK_ne (st : KeyedStore) (key k2 : String) (v : Val)
    (h : k2 ≠ key) : lookupK (insertK st key v) k2 = lookupK st k2 := by
  induction st with
  | nil => simp [insertK, lookupK, Ne.symm h]
  | cons hd tl ih =>
    obtain ⟨k, w⟩ := hd
    by_cases hk : k = key
    · subst hk
      simp [insertK, lookupK, Ne.symm h]
    · simp only [insertK, if_neg hk, lookupK]
      by_cases hk2 : k = k2
      · simp [hk2]
      · simp [hk2, ih]

theorem lookupSession_updateSession_self (ss : List (Nat × Session)) (cid : Nat)
    (s s2 : Session) (h : lookupSession ss cid = some s) :
    lookupSession (updateSession ss cid s2) cid = some s2 := by
  induction ss with
  | nil => simp [lookupSession] at h
  | cons hd tl ih =>
    obtain ⟨i, t⟩ := hd
    by_cases hi : i = cid
    · simp [updateSession, lookupSession, hi]
    · simp only [lookupSession, if_neg hi] at h
      simp [updateSession, lookupSession, hi, ih h]

theorem lookupSession_updateSession_ne (ss : List (Nat × Session)) (cid cid2 : Nat)
    (s2 : Session) (h : cid2 ≠ cid) :
    lookupSession (updateSession ss cid s2) cid2 = lookupSession ss cid2 := by
  induction ss with
  | nil => simp [updateSession]
  | cons hd tl ih =>
    obtain ⟨i, t⟩ := hd
    by_cases hi : i = cid
    · subst hi
      simp [updateSession, lookupSession, Ne.symm h]
    · simp only [updateSession, if_neg hi, lookupSession]
      by_cases hi2 : i = cid2
      · simp [hi2]
      · simp [hi2, ih]

theorem execQueue_snd (q : List StoreCmd) (st : KeyedStore) :
    (execQueue q st).2 = stateAfter q st := by
  induction q generalizing st with
  | nil => simp [execQueue, stateAfter]
  | cons c cs ih => simp [execQueue, stateAfter, ih, List.foldl_cons]

theorem execQueue_length (q : List StoreCmd) (st : KeyedStore) :
    (execQueue q st).1.length = q.length := by
  induction q generalizing st with
  | nil => simp [execQueue]
  | cons c cs ih => simp [execQueue, ih]

theorem execQueue_get? (q : List StoreCmd) (st : KeyedStore) (i : Nat) (c : StoreCmd)
    (h : q.get? i = some c) :
    (execQueue q st).1.get? i = some (applyStore c (stateAfter (q.take i) st)).1 := by
  induction q generalizing st i with
  | nil => simp at h
  | cons hd tl ih =>
    cases i with
    | zero =>
      simp at h
      subst h
      simp [execQueue, stateAfter]
    | succ j =>
      simp only [List.get?_cons_succ] at h
      simp only [execQueue, List.get?_cons_succ, List.take_succ_cons]
      rw [ih _ _ h]
      simp [stateAfter]

theorem stateAfter_append (a b : List StoreCmd) (st : KeyedStore) :
    stateAfter (a ++ b) st = stateAfter b (stateAfter a st) := by
  simp [stateAfter, List.foldl_append]

theorem step_store (srv : Server) (e : Nat × Cmd) :
    (step srv e).store = stateAfter (appliedOf srv e) srv.store := by
  obtain ⟨cid, c⟩ := e
  simp only [step, appliedOf, dispatch]
  cases hs : lookupSession srv.sessions cid with
  | none => simp [stateAfter]
  | some s =>
    obtain ⟨m, q, v, chs, ib⟩ := s
    cases m <;> cases c <;> cases v <;>
      simp [stateAfter, execQueue_snd]

theorem processEvents_store (es : List (Nat × Cmd)) (srv : Server) :
    (processEvents srv es).store = stateAfter (storeTrace srv es) srv.store := by
  induction es generalizing srv with
  | nil => simp [processEvents, storeTrace, stateAfter]
  | cons e es ih =>
    simp only [processEvents, List.foldl_cons, storeTrace, stateAfter_append]
    rw [← step_store]
    exact ih (step srv e)

theorem dispatch_get_fst (srv : Server) (cid : Nat) (k : String) :
    (dispatch srv cid (.store (.get k))).1 =
      getReplyView ((lookupSession srv.sessions cid).map Session.mode) srv.store k := by
  cases hs : lookupSession srv.sessions cid with
  | none => simp [dispatch, hs, getReplyView]
  | some s =>
    obtain ⟨m, q, v, chs, ib⟩ := s
    cases m <;> simp [dispatch, hs, getReplyView, applyStore]
    cases lookupK srv.store k <;> simp

theorem lookupSession_deliver (ch msg : String) (ss : List (Nat × Session)) (cid : Nat) :
    lookupSession (deliver ch msg ss) cid =
      (lookupSession ss cid).map (fun s =>
        if ch ∈ s.channels then { s with inbox := s.inbox ++ [(ch, msg)] } else s) := by
  induction ss with
  | nil => simp [deliver, lookupSession]
  | cons hd tl ih =>
    obtain ⟨i, t⟩ := hd
    simp only [deliver, List.map_cons]
    by_cases hc : ch ∈ t.channels
    · rw [if_pos hc]
      by_cases hi : i = cid
      · subst hi
        simp [lookupSession, hc]
      · simp only [lookupSession, if_neg hi]
        exact ih
    · rw [if_neg hc]
      by_cases hi : i = cid
      · subst hi
        simp [lookupSession, hc]
      · simp only [lookupSession, if_neg hi]
        exact ih

theorem lookupSession_updateSession_map_inbox (ss : List (Nat × Session))
    (cid cid3 : Nat) (s s2 : Session) (hs : lookupSession ss cid = some s)
    (hib : s2.inbox = s.inbox) :
    (lookupSession (updateSession ss cid s2) cid3).map Session.inbox =
      (lookupSession ss cid3).map Session.inbox := by
  by_cases h : cid3 = cid
  · subst h
    rw [lookupSession_updateSession_self _ _ _ _ hs, hs]
    simp [hib]
  · rw [lookupSession_updateSession_ne _ _ _ _ h]

theorem exec_normal_mode_error (srv : Server) (cid : Nat) (s : Session)
    (hs : lookupSession srv.sessions cid = some s) (hm : s.mode = Mode.NORMAL) :
    (dispatch srv cid .exec).1 = .err .ModeError := by
  obtain ⟨m, q, v, chs, ib⟩ := s
  replace hm : m = Mode.NORMAL := hm
  subst hm
  simp [dispatch, hs]

theorem incrKernel_fst_ne_noSuchKey (st : KeyedStore) (key : String) (n : Int) :
    (incrKernel st key n).1 ≠ .err .NoSuchKey := by
  simp only [incrKernel]
  cases lookupK st key with
  | none => simp
  | some v => cases v <;> simp

/-- C9: a read of an absent key yields a defined nil reply rather than an
error, and no command of the modeled scalar fragment (none of which is a
structural command requiring an existing key of a specific kind) ever
fails with `NoSuchKey`. -/
theorem C9_absent_key_read_nil (st : KeyedStore) (k : String)
    (hk : lookupK st k = none) :
    applyStore (.get k) st = (.bulk none, st) ∧
    ∀ (c : StoreCmd) (st2 : KeyedStore), (applyStore c st2).1 ≠ .err .NoSuchKey := by
  constructor
  · simp [applyStore, hk]
  · intro c st2
    cases c with
    | set key val => simp [applyStore]
    | get key =>
      simp only [applyStore]
      cases lookupK st2 key <;> simp
    | del key =>
      simp only [applyStore]
      cases lookupK st2 key <;> simp
    | incr key => exact incrKernel_fst_ne_noSuchKey st2 key 1
    | decr key => exact incrKernel_fst_ne_noSuchKey st2 key (-1)
    | incrBy key n => exact incrKernel_fst_ne_noSuchKey st2 key n
    | decrBy key n => exact incrKernel_fst_ne_noSuchKey st2 key (-n)

def stAbsent : KeyedStore := [("a", .num 1)]

theorem C9_witness :
    applyStore (.get "b") stAbsent = (.bulk none, stAbsent) :=
  (C9_absent_key_read_nil stAbsent "b" rfl).1

/-- C10: on a key holding the numeric scalar v, incr replies v+1 and decr
then replies v, leaving the key holding v again. -/
theorem C10_incr_then_decr_roundtrip (st : KeyedStore) (k : String) (v : Int)
    (hk : lookupK st k = some (.num v)) :
    (applyStore (.incr k) st).1 = .int (v + 1) ∧
    (applyStore (.decr k) (applyStore (.incr k) st).2).1 = .int v ∧
    lookupK (applyStore (.decr k) (applyStore (.incr k) st).2).2 k = some (.num v) := by
  have e : v + 1 + -1 = v := by omega
  have h1 : applyStore (.incr k) st = (.int (v + 1), insertK st k (.num (v + 1))) := by
    simp [applyStore, incrKernel, hk]
  have h2 : applyStore (.decr k) (insertK st k (.num (v + 1))) =
      (.int v, insertK (insertK st k (.num (v + 1))) k (.num v)) := by
    simp [applyStore, incrKernel, lookupK_insertK_self, e]
  refine ⟨by rw [h1], ?_, ?_⟩
  · simp only [h1, h2]
  · simp only [h1, h2]
    exact lookupK_insertK_self _ _ _

def stCounter : KeyedStore := [("counter", .num 0)]

theorem C10_witness :
    (applyStore (.incr "counter") stCounter).1 = .int 1 ∧
    (applyStore (.decr "counter") (applyStore (.incr "counter") stCounter).2).1 = .int 0 ∧
    lookupK (applyStore (.decr "counter") (applyStore (.incr "counter") stCounter).2).2
      "counter" = some (.num 0) :=
  C10_incr_then_decr_roundtrip stCounter "counter" 0 rfl

/-- C5: if the i-th queued command of an executed batch fails, its typed
error sits at position i of the reply list, the reply list still has one
entry per queued command, and the final store reflects every command of
the batch applied in order — no sibling is skipped and nothing is rolled
back. -/
theorem C5_batch_error_no_rollback (q : List StoreCmd) (st : KeyedStore)
    (i : Nat) (c : StoreCmd) (ek : ErrKind)
    (hq : q.get? i = some c)
    (he : (applyStore c (stateAfter (q.take i) st)).1 = .err ek) :
    (execQueue q st).1.get? i = some (.err ek) ∧
    (execQueue q st).2 = stateAfter q st ∧
    (execQueue q st).1.length = q.length := by
  refine ⟨?_, execQueue_snd q st, execQueue_length q st⟩
  rw [execQueue_get? q st i c hq, he]

def qWithError : List StoreCmd := [.set "k" "abc", .incr "k", .set "j" "5"]

theorem C5_witness :
    (execQueue qWithError []).1.get? 1 = some (.err .InvalidArgument) ∧
    (execQueue qWithError []).2 = stateAfter qWithError [] ∧
    (execQueue qWithError []).1.length = qWithError.length :=
  C5_batch_error_no_rollback qWithError [] 1 (.incr "k") .InvalidArgument rfl rfl

/-- C1: a store command submitted by a QUEUEING session is appended to its
QueuedTransaction and acknowledged with the literal "QUEUED" reply; the
KeyedStore is unchanged, every other session is unchanged, and a `get`
issued on any connection afterwards receives exactly the reply it would
have received before the queued command. -/
theorem C1_queueing_defers_store_commands (srv : Server) (cid : Nat)
    (s : Session) (sc : StoreCmd)
    (hs : lookupSession srv.sessions cid = some s)
    (hm : s.mode = Mode.QUEUEING) :
    (dispatch srv cid (.store sc)).1 = .status "QUEUED" ∧
    (dispatch srv cid (.store sc)).2.store = srv.store ∧
    lookupSession (dispatch srv cid (.store sc)).2.sessions cid =
      some { s with queued := s.queued ++ [sc] } ∧
    (∀ cid2, cid2 ≠ cid →
      lookupSession (dispatch srv cid (.store sc)).2.sessions cid2 =
        lookupSession srv.sessions cid2) ∧
    (∀ cid2 k,
      (dispatch (dispatch srv cid (.store sc)).2 cid2 (.store (.get k))).1 =
        (dispatch srv cid2 (.store (.get k))).1) := by
  obtain ⟨m, q, v, chs, ib⟩ := s
  replace hm : m = Mode.QUEUEING := hm
  subst hm
  have hd1 : (dispatch srv cid (.store sc)).1 = .status "QUEUED" := by
    simp [dispatch, hs]
  have hd2 : (dispatch srv cid (.store sc)).2.store = srv.store := by
    simp [dispatch, hs]
  have hd3 : (dispatch srv cid (.store sc)).2.sessions =
      updateSession srv.sessions cid ⟨Mode.QUEUEING, q ++ [sc], v, chs, ib⟩ := by
    simp [dispatch, hs]
  refine ⟨hd1, hd2, ?_, ?_, ?_⟩
  · rw [hd3]
    exact lookupSession_updateSession_self _ _ _ _ hs
  · intro cid2 hne
    rw [hd3]
    exact lookupSession_updateSession_ne _ _ _ _ hne
  · intro cid2 k
    rw [dispatch_get_fst, dispatch_get_fst, hd3, hd2]
    by_cases hce : cid2 = cid
    · subst hce
      rw [lookupSession_updateSession_self _ _ _ _ hs, hs]
      rfl
    · rw [lookupSession_updateSession_ne _ _ _ _ hce]

theorem C1_witness :
    (dispatch srvQueued 1 (.store (.set "y" "2"))).1 = .status "QUEUED" ∧
    (dispatch srvQueued 1 (.store (.set "y" "2"))).2.store = srvQueued.store ∧
    (dispatch (dispatch srvQueued 1 (.store (.set "y" "2"))).2 2 (.store (.get "A"))).1 =
      (dispatch srvQueued 2 (.store (.get "A"))).1 :=
  ⟨(C1_queueing_defers_store_commands srvQueued 1 sessQueued (.set "y" "2") rfl rfl).1,
   (C1_queueing_defers_store_commands srvQueued 1 sessQueued (.set "y" "2") rfl rfl).2.1,
   (C1_queueing_defers_store_commands srvQueued 1 sessQueued
      (.set "y" "2") rfl rfl).2.2.2.2 2 "A"⟩

/-- C2: `exec` on a QUEUEING session with a valid queue replies with the
array of per-command replies — one per queued command, the i-th being the
reply of the i-th queued command evaluated against the store reached by
the earlier queued commands — applies the queue to the store in exactly
the queued order, and resets the session to NORMAL with an empty queue. -/
theorem C2_execute_transaction_in_order (srv : Server) (cid : Nat) (s : Session)
    (hs : lookupSession srv.sessions cid = some s)
    (hm : s.mode = Mode.QUEUEING) (hv : s.valid = true) :
    (dispatch srv cid .exec).1 = .arr (execQueue s.queued srv.store).1 ∧
    (execQueue s.queued srv.store).1.length = s.queued.length ∧
    (∀ i c, s.queued.get? i = some c →
      (execQueue s.queued srv.store).1.get? i =
        some (applyStore c (stateAfter (s.queued.take i) srv.store)).1) ∧
    (dispatch srv cid .exec).2.store = stateAfter s.queued srv.store ∧
    lookupSession (dispatch srv cid .exec).2.sessions cid =
      some { s with mode := Mode.NORMAL, queued := [], valid := true } := by
  obtain ⟨m, q, v, chs, ib⟩ := s
  replace hm : m = Mode.QUEUEING := hm
  replace hv : v = true := hv
  subst hm
  subst hv
  have hd1 : (dispatch srv cid .exec).1 = .arr (execQueue q srv.store).1 := by
    simp [dispatch, hs]
  have hd2 : (dispatch srv cid .exec).2.store = (execQueue q srv.store).2 := by
    simp [dispatch, hs, execQueue_snd, stateAfter]
  have hd3 : (dispatch srv cid .exec).2.sessions =
      updateSession srv.sessions cid ⟨Mode.NORMAL, [], true, chs, ib⟩ := by
    simp [dispatch, hs]
  refine ⟨hd1, execQueue_length q srv.store, ?_, ?_, ?_⟩
  · intro i c hqc
    exact execQueue_get? q srv.store i c hqc
  · rw [hd2]
    exact execQueue_snd q srv.store
  · rw [hd3]
    exact lookupSession_updateSession_self _ _ _ _ hs

theorem C2_witness :
    (dispatch srvQueued 1 .exec).1 = .arr (execQueue sessQueued.queued srvQueued.store).1 ∧
    (execQueue sessQueued.queued srvQueued.store).1.length = sessQueued.queued.length ∧
    (dispatch srvQueued 1 .exec).2.store = stateAfter sessQueued.queued srvQueued.store ∧
    lookupSession (dispatch srvQueued 1 .exec).2.sessions 1 =
      some { sessQueued with mode := Mode.NORMAL, queued := [], valid := true } :=
  ⟨(C2_execute_transaction_in_order srvQueued 1 sessQueued rfl rfl rfl).1,
   (C2_execute_transaction_in_order srvQueued 1 sessQueued rfl rfl rfl).2.1,
   (C2_execute_transaction_in_order srvQueued 1 sessQueued rfl rfl rfl).2.2.2.1,
   (C2_execute_transaction_in_order srvQueued 1 sessQueued rfl rfl rfl).2.2.2.2⟩

/-- C3: starting from A=1000 and B=500, the connection that queued
decrement(A,100), increment(B,100), get(A), get(B) receives the reply
list [900, 600, "900", "600"] on execute, and a read of A from the other
connection during the queueing window still returns "1000". -/
theorem C3_transfer_scenario :
    (dispatch scenarioQueueing 2 (.store (.get "A"))).1 = .bulk (some "1000") ∧
    (dispatch scenarioQueueing 1 .exec).1 =
      .arr [.int 900, .int 600, .bulk (some "900"), .bulk (some "600")] :=
  ⟨rfl, rfl⟩

/-- C4: the store effect of any serialized event sequence equals applying
the flattened store-command trace, in which each event's commands — in
particular the whole batch of an executing transaction — appear
contiguously and in order; an exec event from a QUEUEING session with a
valid queue contributes exactly its queued batch to that trace. -/
theorem C4_transaction_batch_contiguous (srv : Server) (es : List (Nat × Cmd))
    (e : Nat × Cmd) (cid : Nat) (s : Session) :
    ((processEvents srv es).store = stateAfter (storeTrace srv es) srv.store) ∧
    (storeTrace srv (e :: es) = appliedOf srv e ++ storeTrace (step srv e) es) ∧
    (lookupSession srv.sessions cid = some s → s.mode = Mode.QUEUEING →
      s.valid = true → appliedOf srv (cid, .exec) = s.queued) := by
  refine ⟨processEvents_store es srv, rfl, ?_⟩
  intro hs hm hv
  obtain ⟨m, q, v, chs, ib⟩ := s
  replace hm : m = Mode.QUEUEING := hm
  replace hv : v = true := hv
  subst hm
  subst hv
  simp [appliedOf, hs]

theorem C4_witness :
    ((processEvents srvQueued [(1, .exec), (2, .store (.get "A"))]).store =
      stateAfter (storeTrace srvQueued [(1, .exec), (2, .store (.get "A"))])
        srvQueued.store) ∧
    appliedOf srvQueued (1, .exec) = sessQueued.queued :=
  ⟨(C4_transaction_batch_contiguous srvQueued [(1, .exec), (2, .store (.get "A"))]
      (1, .exec) 1 sessQueued).1,
   (C4_transaction_batch_contiguous srvQueued [(1, .exec), (2, .store (.get "A"))]
      (1, .exec) 1 sessQueued).2.2 rfl rfl rfl⟩

/-- C6: publish replies with exactly the number of sessions subscribed to
the channel at the moment of the call (0 when none, without error);
sessions not subscribed at that moment are completely untouched, every
currently subscribed session receives the message, and subscribing never
changes any session's inbox — so a session that subscribes only after the
call never receives that message. -/
theorem C6_publish_fire_and_forget (srv : Server) (cid : Nat) (s : Session)
    (ch msg : String)
    (hs : lookupSession srv.sessions cid = some s)
    (hm : s.mode = Mode.NORMAL) :
    (dispatch srv cid (.publish ch msg)).1 = .int (subscriberCount ch srv.sessions) ∧
    (∀ cid2 s2, lookupSession srv.sessions cid2 = some s2 → ch ∉ s2.channels →
      lookupSession (dispatch srv cid (.publish ch msg)).2.sessions cid2 = some s2) ∧
    (∀ cid2 s2, lookupSession srv.sessions cid2 = some s2 → ch ∈ s2.channels →
      lookupSession (dispatch srv cid (.publish ch msg)).2.sessions cid2 =
        some { s2 with inbox := s2.inbox ++ [(ch, msg)] }) ∧
    (∀ (srv2 : Server) (cid2 : Nat) (ch2 : String) (cid3 : Nat),
      (lookupSession (dispatch srv2 cid2 (.subscribe ch2)).2.sessions cid3).map
          Session.inbox =
        (lookupSession srv2.sessions cid3).map Session.inbox) := by
  obtain ⟨m, q, v, chs, ib⟩ := s
  replace hm : m = Mode.NORMAL := hm
  subst hm
  have hd1 : (dispatch srv cid (.publish ch msg)).1 =
      .int (subscriberCount ch srv.sessions) := by
    simp [dispatch, hs]
  have hd3 : (dispatch srv cid (.publish ch msg)).2.sessions =
      deliver ch msg srv.sessions := by
    simp [dispatch, hs]
  refine ⟨hd1, ?_, ?_, ?_⟩
  · intro cid2 s2 hs2 hnotin
    rw [hd3, lookupSession_deliver, hs2]
    simp [hnotin]
  · intro cid2 s2 hs2 hin
    rw [hd3, lookupSession_deliver, hs2]
    simp [hin]
  · intro srv2 cid2 ch2 cid3
    cases hs2 : lookupSession srv2.sessions cid2 with
    | none => simp [dispatch, hs2]
    | some t =>
      obtain ⟨m2, q2, v2, chs2, ib2⟩ := t
      cases m2 with
      | NORMAL =>
        have hd : (dispatch srv2 cid2 (.subscribe ch2)).2.sessions =
            updateSession srv2.sessions cid2
              ⟨Mode.SUBSCRIBED, q2, v2,
                if ch2 ∈ chs2 then chs2 else chs2 ++ [ch2], ib2⟩ := by
          simp [dispatch, hs2]
        rw [hd]
        exact lookupSession_updateSession_map_inbox _ _ _ _ _ hs2 rfl
      | QUEUEING => simp [dispatch, hs2]
      | SUBSCRIBED =>
        have hd : (dispatch srv2 cid2 (.subscribe ch2)).2.sessions =
            updateSession srv2.sessions cid2
              ⟨Mode.SUBSCRIBED, q2, v2,
                if ch2 ∈ chs2 then chs2 else chs2 ++ [ch2], ib2⟩ := by
          simp [dispatch, hs2]
        rw [hd]
        exact lookupSession_updateSession_map_inbox _ _ _ _ _ hs2 rfl

theorem C6_witness :
    (dispatch srvPub 1 (.publish "alerts" "fire")).1 =
      .int (subscriberCount "alerts" srvPub.sessions) ∧
    lookupSession (dispatch srvPub 1 (.publish "alerts" "fire")).2.sessions 3 =
      some Session.fresh ∧
    lookupSession (dispatch srvPub 1 (.publish "alerts" "fire")).2.sessions 2 =
      some { sessAlerts with inbox := sessAlerts.inbox ++ [("alerts", "fire")] } :=
  ⟨(C6_publish_fire_and_forget srvPub 1 Session.fresh "alerts" "fire" rfl rfl).1,
   (C6_publish_fire_and_forget srvPub 1 Session.fresh "alerts" "fire" rfl rfl).2.1
     3 Session.fresh rfl (by decide),
   (C6_publish_fire_and_forget srvPub 1 Session.fresh "alerts" "fire" rfl rfl).2.2.1
     2 sessAlerts rfl (by decide)⟩

/-- C7: a SUBSCRIBED session accepts only subscribe/unsubscribe/ping/quit;
every other command — in particular every store command — is answered with
a `ModeError` reply and leaves the whole server state (KeyedStore
included) unchanged, while the four permitted commands are never answered
with a `ModeError`. -/
theorem C7_subscribed_mode_filter (srv : Server) (cid : Nat) (s : Session) (c : Cmd)
    (hs : lookupSession srv.sessions cid = some s)
    (hm : s.mode = Mode.SUBSCRIBED) :
    (allowedSubscribed c = false → dispatch srv cid c = (.err .ModeError, srv)) ∧
    (allowedSubscribed c = true → (dispatch srv cid c).1 ≠ .err .ModeError) := by
  obtain ⟨m, q, v, chs, ib⟩ := s
  replace hm : m = Mode.SUBSCRIBED := hm
  subst hm
  constructor
  · intro hc
    cases c <;> simp [allowedSubscribed] at hc <;> simp [dispatch, hs]
  · intro hc
    cases c <;> simp [allowedSubscribed] at hc <;> simp [dispatch, hs]

theorem C7_witness :
    dispatch srvPub 2 (.store (.get "x")) = (.err .ModeError, srvPub) :=
  (C7_subscribed_mode_filter srvPub 2 sessAlerts (.store (.get "x")) rfl rfl).1 rfl

/-- C8: discard on a QUEUEING session replies OK, clears the queue and
resets the mode to NORMAL without touching the store; an exec issued next
without a new begin-transaction is answered with a `ModeError`, and a
discard issued by a session not in QUEUEING mode is answered with a
`ModeError`. -/
theorem C8_discard_resets_to_normal (srv : Server) (cid : Nat) (s : Session)
    (hs : lookupSession srv.sessions cid = some s) :
    (s.mode = Mode.QUEUEING →
      (dispatch srv cid .discard).1 = .status "OK" ∧
      (dispatch srv cid .discard).2.store = srv.store ∧
      lookupSession (dispatch srv cid .discard).2.sessions cid =
        some { s with mode := Mode.NORMAL, queued := [], valid := true } ∧
      (dispatch (dispatch srv cid .discard).2 cid .exec).1 = .err .ModeError) ∧
    (s.mode ≠ Mode.QUEUEING → (dispatch srv cid .discard).1 = .err .ModeError) := by
  obtain ⟨m, q, v, chs, ib⟩ := s
  constructor
  · intro hm
    replace hm : m = Mode.QUEUEING := hm
    subst hm
    have hd1 : (dispatch srv cid .discard).1 = .status "OK" := by
      simp [dispatch, hs]
    have hd2 : (dispatch srv cid .discard).2.store = srv.store := by
      simp [dispatch, hs]
    have hd3 : (dispatch srv cid .discard).2.sessions =
        updateSession srv.sessions cid ⟨Mode.NORMAL, [], true, chs, ib⟩ := by
      simp [dispatch, hs]
    have hs2 : lookupSession (dispatch srv cid .discard).2.sessions cid =
        some ⟨Mode.NORMAL, [], true, chs, ib⟩ := by
      rw [hd3]
      exact lookupSession_updateSession_self _ _ _ _ hs
    refine ⟨hd1, hd2, hs2, ?_⟩
    exact exec_normal_mode_error _ cid _ hs2 rfl
  · intro hm
    have hm2 : m ≠ Mode.QUEUEING := fun h => hm h
    cases m with
    | NORMAL => simp [dispatch, hs]
    | QUEUEING => exact absurd rfl hm2
    | SUBSCRIBED => simp [dispatch, hs]

theorem C8_witness :
    (dispatch srvQueued 1 .discard).1 = .status "OK" ∧
    (dispatch srvQueued 1 .discard).2.store = srvQueued.store ∧
    (dispatch (dispatch srvQueued 1 .discard).2 1 .exec).1 = .err .ModeError ∧
    (dispatch srvQueued 2 .discard).1 = .err .ModeError :=
  ⟨((C8_discard_resets_to_normal srvQueued 1 sessQueued rfl).1 rfl).1,
   ((C8_discard_resets_to_normal srvQueued 1 sessQueued rfl).1 rfl).2.1,
   ((C8_discard_resets_to_normal srvQueued 1 sessQueued rfl).1 rfl).2.2.2,
   (C8_discard_resets_to_normal srvQueued 2 Session.fresh rfl).2 (by decide)⟩

end RedisCore
